import Mathlib

set_option maxRecDepth 20000

/-!
Shallow embedding of `src/fhir_upload_temperature.cpp`, a single-file C
program that reads a body temperature (argv[1] or a stdin prompt), validates
it with `isfinite`, renders a fixed FHIR Observation JSON with `snprintf`
(`%.2f` for the value), and performs one libcurl HTTP POST, reporting the
status code.

Modelling conventions:
* C strings are `List Char`.
* The C `double` is modelled by `CDouble`: a finite rational, `nan`, or an
  infinity.  Conversions whose exact value reaches `2 ^ 1024` in magnitude
  overflow to an infinity, as decimal-to-double conversion does at the top of
  the IEEE-754 double range.  Rounding of a decimal literal to the nearest
  binary double (and underflow of tiny values to zero) is not modelled: the
  finite value is kept as the exact rational, and no theorem below depends on
  the rounding direction.
* `atof` is modelled after the C `strtod` grammar it delegates to: optional
  whitespace, optional sign, `infinity`/`inf`/`nan` (case-insensitive) or a
  digit string with optional decimal point and optional exponent; the longest
  valid prefix is consumed and the rest is ignored; if no conversion can be
  performed the result is `0.0`.  C99 hexadecimal floating constants, the
  optional `nan(...)` payload suffix, and locale-dependent decimal points are
  not modelled; no claim concerns them.
* The process is `run : Env → RunResult`, a pure function from the inputs the
  program consults (argv tail, the line `fgets` returns from stdin, the
  `strftime` clock string, whether `curl_easy_init` succeeds, and the outcome
  of `curl_easy_perform`) to the ordered list of observable events (stdout
  writes, stderr writes, the HTTP POST attempt) and the process exit code.
  libcurl's default write callback echoes a received response body to stdout,
  so a received response contributes an `OutEvent.out body` event before the
  status-code line.
-/

/-- Model of C `isspace` in the C locale: space, tab, newline, vertical tab,
form feed, carriage return. -/
def isSpaceC (c : Char) : Bool :=
  c = ' ' || c = '\t' || c = '\n' || c = '\x0b' || c = '\x0c' || c = '\r'

/-- Numeric value of a decimal digit character. -/
def digitVal (c : Char) : ℕ := c.toNat - 48

/-- Value of a string of decimal digits, most significant first. -/
def digitsVal (l : List Char) : ℕ := l.foldl (fun a c => a * 10 + digitVal c) 0

/-- Fuel-driven decimal rendering of a natural number; any fuel above the
argument yields the digits, most significant first. -/
def natStrAux : ℕ → ℕ → List Char
  | 0, _ => []
  | fuel + 1, n =>
      if n < 10 then [Nat.digitChar n]
      else natStrAux fuel (n / 10) ++ [Nat.digitChar (n % 10)]

/-- Decimal rendering of a natural number, as `printf` renders it: most
significant digit first, no sign, no padding. -/
def natStr (n : ℕ) : List Char := natStrAux (n + 1) n

/-- Decimal rendering of an integer, as `printf` `%ld` renders it. -/
def intStr (i : ℤ) : List Char :=
  if i < 0 then '-' :: natStr i.natAbs else natStr i.toNat

/-- Model of the C `double` as observed by this program: a finite value (kept
as an exact rational), a NaN, or an infinity. -/
inductive CDouble where
  | finite (q : ℚ)
  | posInf
  | negInf
  | nan
deriving DecidableEq

/-- Model of C `isfinite`. -/
def isfinite : CDouble → Bool
  | .finite _ => true
  | _ => false

/-- Magnitude at which a decimal-to-double conversion overflows to an
infinity: finite doubles are strictly below `2 ^ 1024`. -/
def dblOverflow : ℚ := ((2 ^ 1024 : ℕ) : ℚ)

/-- Attach a sign to a nonnegative magnitude, overflowing to an infinity at
the top of the double range. -/
def clampDouble (neg : Bool) (mag : ℚ) : CDouble :=
  if dblOverflow ≤ mag then (if neg then .negInf else .posInf)
  else .finite (if neg then -mag else mag)

/-- Case-insensitive match of a (lowercase) pattern against a prefix of the
input; on success returns the input after the pattern. -/
def matchCI : List Char → List Char → Option (List Char)
  | [], rest => some rest
  | _ :: _, [] => none
  | p :: ps, c :: cs => if c.toLower = p then matchCI ps cs else none

/-- Consume a maximal run of decimal digits: `(digits, rest)`. -/
def parseDigits (l : List Char) : List Char × List Char :=
  (l.takeWhile Char.isDigit, l.dropWhile Char.isDigit)

/-- Parse the `strtod` mantissa — a nonempty digit sequence optionally
containing one decimal point.  Returns `(value, consumed, rest)`, or `none`
when no digit is found (no conversion). -/
def parseMant (l : List Char) : Option (ℚ × List Char × List Char) :=
  match (parseDigits l).2 with
  | '.' :: r2 =>
      if (parseDigits l).1 = [] ∧ (parseDigits r2).1 = [] then none
      else some ((digitsVal (parseDigits l).1 : ℚ) +
                   (digitsVal (parseDigits r2).1 : ℚ) / 10 ^ (parseDigits r2).1.length,
                 (parseDigits l).1 ++ '.' :: (parseDigits r2).1, (parseDigits r2).2)
  | _ =>
      if (parseDigits l).1 = [] then none
      else some ((digitsVal (parseDigits l).1 : ℚ), (parseDigits l).1, (parseDigits l).2)

/-- Parse an optional `strtod` exponent part `e[±]digits` (case-insensitive).
If the part is absent or incomplete nothing is consumed (the conversion backs
up to the end of the mantissa).  Returns `(exponent, consumed, rest)`. -/
def parseExp (l : List Char) : ℤ × List Char × List Char :=
  match l with
  | e :: rest =>
    if e.toLower = 'e' then
      match rest with
      | s :: rest2 =>
        if s = '+' then
          if (parseDigits rest2).1 = [] then (0, [], l)
          else ((digitsVal (parseDigits rest2).1 : ℤ),
                e :: s :: (parseDigits rest2).1, (parseDigits rest2).2)
        else if s = '-' then
          if (parseDigits rest2).1 = [] then (0, [], l)
          else (-(digitsVal (parseDigits rest2).1 : ℤ),
                e :: s :: (parseDigits rest2).1, (parseDigits rest2).2)
        else
          if (parseDigits rest).1 = [] then (0, [], l)
          else ((digitsVal (parseDigits rest).1 : ℤ),
                e :: (parseDigits rest).1, (parseDigits rest).2)
      | [] => (0, [], l)
    else (0, [], l)
  | [] => (0, [], l)

/-- The `strtod` conversion after whitespace `ws` and a sign `sgn` have been
consumed from the original input `l`, leaving `l2`: the special words
`infinity`/`inf`/`nan` (case-insensitive), else a mantissa with optional
exponent, else no conversion (value `0.0`, nothing consumed, rest is the
whole original input). -/
def atofTail (neg : Bool) (ws sgn l2 l : List Char) :
    CDouble × List Char × List Char :=
  match matchCI ['i','n','f','i','n','i','t','y'] l2 with
  | some r => ((if neg then .negInf else .posInf), ws ++ sgn ++ l2.take 8, r)
  | none =>
  match matchCI ['i','n','f'] l2 with
  | some r => ((if neg then .negInf else .posInf), ws ++ sgn ++ l2.take 3, r)
  | none =>
  match matchCI ['n','a','n'] l2 with
  | some r => (.nan, ws ++ sgn ++ l2.take 3, r)
  | none =>
  match parseMant l2 with
  | some (m, c1, r1) =>
      (clampDouble neg (m * (10 : ℚ) ^ (parseExp r1).1),
       ws ++ sgn ++ c1 ++ (parseExp r1).2.1, (parseExp r1).2.2)
  | none => (.finite 0, [], l)

/-- Model of C `atof`/`strtod`: value of the longest valid numeric prefix,
together with the consumed prefix and the unconsumed rest; `0.0` consuming
nothing when no conversion can be performed. -/
def atofParse (l : List Char) : CDouble × List Char × List Char :=
  let ws := l.takeWhile isSpaceC
  match l.dropWhile isSpaceC with
  | '+' :: r => atofTail false ws ['+'] r l
  | '-' :: r => atofTail true ws ['-'] r l
  | l1 => atofTail false ws [] l1 l

/-- Model of C `atof`: the converted value. -/
def atof (l : List Char) : CDouble := (atofParse l).1

/-- Rounding of a rational to the nearest integer, ties to even, as `printf`
rounds the exact value of a double when formatting `%.2f`. -/
def roundHalfEven (q : ℚ) : ℤ :=
  if q - ⌊q⌋ < 1/2 then ⌊q⌋
  else if 1/2 < q - ⌊q⌋ then ⌊q⌋ + 1
  else if ⌊q⌋ % 2 = 0 then ⌊q⌋ else ⌊q⌋ + 1

/-- Two-digit zero-padded rendering of `k < 100`, the fractional part of a
`%.2f` conversion. -/
def twoFrac (k : ℕ) : List Char :=
  (if k < 10 then ['0'] else []) ++ natStr k

/-- Model of `printf` `%.2f` applied to a finite double of exact value `q`:
optional minus sign, integer part, decimal point, exactly two fractional
digits. -/
def fmt2 (q : ℚ) : List Char :=
  (if q < 0 then ['-'] else []) ++
    natStr ((roundHalfEven (|q| * 100)).toNat / 100) ++
    '.' :: twoFrac ((roundHalfEven (|q| * 100)).toNat % 100)

/-- The `FHIR_SERVER_URL` macro. -/
def fhirServerUrl : List Char := "https://hapi.fhir.org/baseR4/Observation".data

/-- The `PATIENT_ID` macro. -/
def patientId : List Char := "49410276".data

/-- Text of the `snprintf` format string before the `%s` patient id. -/
def jsonA : List Char :=
  ("\x7b\n  \"resourceType\": \"Observation\",\n  \"status\": \"final\",\n  \"category\": [ \x7b \"coding\": [ \x7b \"system\": \"http://terminology.hl7.org/CodeSystem/observation-category\", \"code\": \"vital-signs\", \"display\": \"Vital Signs\" \x7d ] \x7d ],\n  \"code\": \x7b \"coding\": [ \x7b \"system\": \"http://loinc.org\", \"code\": \"8310-5\", \"display\": \"Body temperature\" \x7d ], \"text\": \"Body temperature\" \x7d,\n  \"subject\": \x7b \"reference\": \"Patient/").data

/-- Text of the format string between the patient id and the `%s` timestamp. -/
def jsonB : List Char := ("\" \x7d,\n  \"effectiveDateTime\": \"").data

/-- Text of the format string between the timestamp and the `%.2f` value. -/
def jsonC : List Char := ("\",\n  \"valueQuantity\": \x7b \"value\": ").data

/-- Text of the format string after the `%.2f` value. -/
def jsonD : List Char :=
  (", \"unit\": \"degrees C\", \"system\": \"http://unitsofmeasure.org\", \"code\": \"Cel\" \x7d\n\x7d\n").data

/-- The JSON payload `snprintf` renders (before any buffer truncation):
the fixed template with the patient id, the timestamp, and the `%.2f`
rendering of the temperature substituted in. -/
def buildJson (iso : List Char) (q : ℚ) : List Char :=
  jsonA ++ patientId ++ jsonB ++ iso ++ jsonC ++ fmt2 q ++ jsonD

/-- An observable step of the process: a write to stdout, a write to stderr,
or the HTTP POST attempt handed to `curl_easy_perform` (URL, header list,
user agent, body). -/
inductive OutEvent where
  | out (s : List Char)
  | err (s : List Char)
  | post (url : List Char) (headers : List (List Char)) (ua : List Char) (body : List Char)
deriving DecidableEq

/-- Outcome of `curl_easy_perform`: a transport-level failure with the
`curl_easy_strerror` text, or a received HTTP response (status code from
`CURLINFO_RESPONSE_CODE`, and the body libcurl's default write callback
echoes to stdout). -/
inductive TransportResult where
  | fail (msg : List Char)
  | ok (code : ℤ) (body : List Char)
deriving DecidableEq

/-- Everything the process consults: the argv tail, the line `fgets` returns
from stdin (`none` on end-of-file or error), the `strftime` clock text,
whether `curl_easy_init` succeeds, and the `curl_easy_perform` outcome. -/
structure Env where
  args : List (List Char)
  stdinLine : Option (List Char)
  nowIso : List Char
  curlInitOk : Bool
  transport : TransportResult
deriving DecidableEq

/-- Result of a process run: the ordered observable events and the exit
code. -/
structure RunResult where
  events : List OutEvent
  exitCode : ℕ
deriving DecidableEq

/-- The interactive prompt printed when no argument is given. -/
def promptMsg : List Char := "Enter body temperature (e.g. 36.5): ".data

/-- Stderr message when `fgets` yields nothing. -/
def noInputMsg : List Char := "No input\n".data

/-- Stderr message when the parsed temperature is not finite. -/
def invalidMsg : List Char := "Invalid temperature value.\n".data

/-- Stderr message when the rendered payload does not fit the 2048-byte
buffer (or `snprintf` fails). -/
def payloadErrMsg : List Char := "JSON payload too long or formatting error.\n".data

/-- Stderr message when `curl_easy_init` returns NULL. -/
def curlInitFailMsg : List Char := "Failed to initialize curl.\n".data

/-- Stdout notice printed just before the request is performed. -/
def postingMsg : List Char := "Posting Observation to ".data ++ fhirServerUrl ++ "\n".data

/-- Stdout text preceding the numeric HTTP status code. -/
def respCodeMsgPre : List Char := "Server HTTP response code: ".data

/-- Stderr text preceding the `curl_easy_strerror` reason. -/
def performFailMsgPre : List Char := "curl_easy_perform() failed: ".data

/-- Stdout message for a 2xx response. -/
def successMsg : List Char := "Observation uploaded successfully.\n".data

/-- Stdout message for any non-2xx response. -/
def failureMsg : List Char := "Upload may have failed. Check server logs or response.\n".data

/-- The two headers appended to the `curl_slist`, in order. -/
def reqHeaders : List (List Char) :=
  ["Content-Type: application/fhir+json;charset=utf-8".data,
   "Accept: application/fhir+json".data]

/-- The `CURLOPT_USERAGENT` string. -/
def userAgent : List Char := "fhir-c-uploader/1.0".data

/-- Events of the input-reading phase: with an argument present nothing is
printed; otherwise the prompt is printed before `fgets` is called. -/
def inputEvents (env : Env) : List OutEvent :=
  match env.args with
  | [] => [.out promptMsg]
  | _ :: _ => []

/-- The string the temperature is parsed from: `argv[1]` when present (any
further arguments are never read), else the line `fgets` returns. -/
def readLine (env : Env) : Option (List Char) :=
  match env.args with
  | [] => env.stdinLine
  | s :: _ => some s

/-- The parsed temperature, when an input string was obtained at all. -/
def parsedTemp (env : Env) : Option CDouble := (readLine env).map atof

/-- Model of lines 62-133 of `main`: everything after a finite temperature
`q` has been obtained — timestamp already rendered to `iso`, payload
formatting with the 2048-byte guard, `curl_easy_init` check, the posting
notice, the one `curl_easy_perform`, and the response report.  `evs` are the
events already emitted by the input phase. -/
def buildAndSend (evs : List OutEvent) (iso : List Char) (q : ℚ)
    (curlOk : Bool) (tr : TransportResult) : RunResult :=
  if 2048 ≤ (buildJson iso q).length then
    ⟨evs ++ [.err payloadErrMsg], 1⟩
  else if curlOk = false then
    ⟨evs ++ [.err curlInitFailMsg], 1⟩
  else
    match tr with
    | .fail m =>
      ⟨evs ++ [.out postingMsg,
               .post fhirServerUrl reqHeaders userAgent (buildJson iso q),
               .err (performFailMsgPre ++ m ++ "\n".data)], 1⟩
    | .ok c body =>
      if 200 ≤ c ∧ c < 300 then
        ⟨evs ++ [.out postingMsg,
                 .post fhirServerUrl reqHeaders userAgent (buildJson iso q),
                 .out body, .out (respCodeMsgPre ++ intStr c ++ "\n".data),
                 .out successMsg], 0⟩
      else
        ⟨evs ++ [.out postingMsg,
                 .post fhirServerUrl reqHeaders userAgent (buildJson iso q),
                 .out body, .out (respCodeMsgPre ++ intStr c ++ "\n".data),
                 .out failureMsg], 1⟩

/-- Model of `main`: read the input (argv[1], else prompt and `fgets`),
parse it with `atof`, reject non-finite values, then build and send the
Observation.  `strftime` into the 32-byte `iso_time` buffer yields at most
31 characters, hence the `take 31`. -/
def run (env : Env) : RunResult :=
  match readLine env with
  | none => ⟨inputEvents env ++ [.err noInputMsg], 1⟩
  | some s =>
    match atof s with
    | .finite q => buildAndSend (inputEvents env) (env.nowIso.take 31) q
                     env.curlInitOk env.transport
    | _ => ⟨inputEvents env ++ [.err invalidMsg], 1⟩

/-- Recognizer for the POST event, for counting network requests. -/
def isPost : OutEvent → Bool
  | .post _ _ _ _ => true
  | _ => false

/-- Number of HTTP POST attempts among a run's events. -/
def countPosts (l : List OutEvent) : ℕ := l.countP isPost

/-- The ten ASCII decimal digit characters. -/
def digitChars : List Char := "0123456789".data

/-- The first character of `r` (if any) fails the predicate `p`. -/
def headNot (p : Char → Bool) : List Char → Prop
  | [] => True
  | c :: _ => p c = false

/-- The first character of `junk` (if any) cannot continue a number: not a
digit, not a decimal point, not an exponent marker. -/
def numStop : List Char → Prop
  | [] => True
  | c :: _ => c.isDigit = false ∧ c ≠ '.' ∧ c.toLower ≠ 'e'

/-- The first character of `l` (if any) can begin no `strtod` number: it is
not whitespace, not a sign, not a digit, not a decimal point, and not the
start of `inf`/`nan`. -/
def noNumHead : List Char → Prop
  | [] => True
  | c :: _ => isSpaceC c = false ∧ c.isDigit = false ∧ c ≠ '+' ∧ c ≠ '-' ∧
      c ≠ '.' ∧ c.toLower ≠ 'i' ∧ c.toLower ≠ 'n'

/-- Decidability of the stop-character condition. -/
instance : (l : List Char) → Decidable (numStop l)
  | [] => .isTrue trivial
  | c :: _ => inferInstanceAs (Decidable (c.isDigit = false ∧ c ≠ '.' ∧ c.toLower ≠ 'e'))

/-- Decidability of the no-number-head condition. -/
instance : (l : List Char) → Decidable (noNumHead l)
  | [] => .isTrue trivial
  | c :: _ => inferInstanceAs (Decidable (isSpaceC c = false ∧ c.isDigit = false ∧
      c ≠ '+' ∧ c ≠ '-' ∧ c ≠ '.' ∧ c.toLower ≠ 'i' ∧ c.toLower ≠ 'n'))

/-- One character list occurs contiguously inside another. -/
def containsSeg (big seg : List Char) : Prop := ∃ a b, big = a ++ seg ++ b

/-- The events a run has emitted by the time the status-code line has been
printed for a received response: input phase, posting notice, the POST, the
body echoed by libcurl's default write callback, and the status line. -/
def respPrefix (env : Env) (q : ℚ) (c : ℤ) (body : List Char) : List OutEvent :=
  inputEvents env ++
    [.out postingMsg,
     .post fhirServerUrl reqHeaders userAgent (buildJson (env.nowIso.take 31) q),
     .out body, .out (respCodeMsgPre ++ intStr c ++ "\n".data)]

/-- Every digit character produced by `Nat.digitChar` below 10 is a decimal
digit. -/
theorem digitChar_isDigit : ∀ m < 10, (Nat.digitChar m).isDigit = true := by decide

/-- The fuel argument of `natStrAux` is irrelevant once it exceeds the
number being rendered. -/
theorem natStrAux_congr : ∀ f₁ f₂ n : ℕ, n < f₁ → n < f₂ →
    natStrAux f₁ n = natStrAux f₂ n := by
  intro f₁
  induction f₁ with
  | zero => omega
  | succ f₁ ih =>
    intro f₂ n h1 h2
    match f₂, h2 with
    | f₂ + 1, _ =>
      show (if n < 10 then _ else _) = (if n < 10 then _ else _)
      split
      · rfl
      · rw [ih f₂ (n / 10) (by omega) (by omega)]

/-- Unfolding equation for `natStr`. -/
theorem natStr_eq (n : ℕ) :
    natStr n = if n < 10 then [Nat.digitChar n]
               else natStr (n / 10) ++ [Nat.digitChar (n % 10)] := by
  show (if n < 10 then _ else _) = _
  split
  · rfl
  · rw [natStr, natStrAux_congr n (n / 10 + 1) (n / 10)
        (Nat.div_lt_self (by omega) (by omega)) (by omega)]

/-- Every character of `natStr n` is a decimal digit. -/
theorem natStr_isDigit (n : ℕ) : ∀ c ∈ natStr n, c.isDigit = true := by
  induction n using Nat.strong_induction_on with
  | _ n ih =>
    rw [natStr_eq]
    split
    · intro c hc
      rw [List.mem_singleton] at hc
      subst hc
      exact digitChar_isDigit n (by omega)
    · intro c hc
      rw [List.mem_append] at hc
      rcases hc with h | h
      · exact ih (n / 10) (Nat.div_lt_self (by omega) (by omega)) c h
      · rw [List.mem_singleton] at h
        subst h
        exact digitChar_isDigit _ (Nat.mod_lt _ (by omega))

/-- Digit-string length bound: a natural below `10 ^ k` needs at most `k`
digits. -/
theorem natStr_length_le : ∀ k n : ℕ, 1 ≤ k → n < 10 ^ k → (natStr n).length ≤ k := by
  intro k
  induction k with
  | zero => omega
  | succ k ih =>
    intro n _ hn
    rw [natStr_eq]
    split
    · simp
    · rename_i h10
      rcases Nat.eq_zero_or_pos k with hk | hk
      · subst hk
        norm_num at hn
        omega
      · have hdiv : n / 10 < 10 ^ k := by
          rw [Nat.div_lt_iff_lt_mul (by norm_num)]
          calc n < 10 ^ (k + 1) := hn
          _ = 10 ^ k * 10 := by ring
        have := ih (n / 10) hk hdiv
        simp only [List.length_append, List.length_cons, List.length_nil]
        omega

/-- The two-digit fractional rendering has exactly two characters. -/
theorem twoFrac_length : ∀ k < 100, (twoFrac k).length = 2 := by decide

/-- The two-digit fractional rendering is all digits. -/
theorem twoFrac_isDigit : ∀ k < 100, ∀ c ∈ twoFrac k, c.isDigit = true := by decide

/-- Shape of a `%.2f` rendering: an integer part free of decimal points,
then a point, then exactly two fractional digits. -/
theorem fmt2_shape (q : ℚ) :
    ∃ ip fr, fmt2 q = ip ++ '.' :: fr ∧ fr.length = 2 ∧
      (∀ c ∈ fr, c.isDigit = true) ∧ '.' ∉ ip := by
  refine ⟨(if q < 0 then ['-'] else []) ++
            natStr ((roundHalfEven (|q| * 100)).toNat / 100),
          twoFrac ((roundHalfEven (|q| * 100)).toNat % 100), ?_, ?_, ?_, ?_⟩
  · simp [fmt2]
  · exact twoFrac_length _ (Nat.mod_lt _ (by norm_num))
  · exact twoFrac_isDigit _ (Nat.mod_lt _ (by norm_num))
  · intro hmem
    rw [List.mem_append] at hmem
    rcases hmem with h | h
    · split at h <;> simp_all
    · have := natStr_isDigit _ _ h
      simp at this

/-- Half-even rounding never exceeds the floor plus one. -/
theorem roundHalfEven_le (q : ℚ) : roundHalfEven q ≤ ⌊q⌋ + 1 := by
  unfold roundHalfEven
  split
  · omega
  · split
    · omega
    · split <;> omega

/-- Half-even rounding of a nonnegative rational is nonnegative. -/
theorem roundHalfEven_nonneg (q : ℚ) (h : 0 ≤ q) : 0 ≤ roundHalfEven q := by
  have hf : (0 : ℤ) ≤ ⌊q⌋ := Int.floor_nonneg.mpr h
  unfold roundHalfEven
  split
  · omega
  · split
    · omega
    · split <;> omega

/-- The overflow threshold of the double model is positive. -/
theorem dblOverflow_pos : (0 : ℚ) < dblOverflow := by
  rw [dblOverflow]
  exact_mod_cast pow_pos (by norm_num : (0 : ℕ) < 2) 1024

/-- Arithmetic fact used for the payload bound. -/
theorem pow2_1024_bound : (2 ^ 1024 * 100 : ℕ) < 10 ^ 311 := by norm_num

/-- A `%.2f` rendering of a value in double range takes at most 313
characters (sign, at most 309 integer digits, point, two digits). -/
theorem fmt2_length_le (q : ℚ) (h : |q| < dblOverflow) : (fmt2 q).length ≤ 313 := by
  have hmul : |q| * 100 < dblOverflow * 100 :=
    mul_lt_mul_of_pos_right h (by norm_num)
  have hcast : dblOverflow * 100 = ((2 ^ 1024 * 100 : ℕ) : ℚ) := by
    rw [dblOverflow]
    push_cast
    ring
  have hfl : ⌊|q| * 100⌋ < ((2 ^ 1024 * 100 : ℕ) : ℤ) := by
    rw [Int.floor_lt]
    rw [hcast] at hmul
    exact_mod_cast hmul
  have hrle : roundHalfEven (|q| * 100) ≤ ((2 ^ 1024 * 100 : ℕ) : ℤ) :=
    le_trans (roundHalfEven_le _) (Int.add_one_le_iff.mpr hfl)
  have hm : (roundHalfEven (|q| * 100)).toNat < 10 ^ 311 := by
    have h1 : (roundHalfEven (|q| * 100)).toNat ≤ ((2 ^ 1024 * 100 : ℕ) : ℤ).toNat :=
      Int.toNat_le_toNat hrle
    rw [Int.toNat_natCast] at h1
    exact lt_of_le_of_lt h1 pow2_1024_bound
  have hdiv : (roundHalfEven (|q| * 100)).toNat / 100 < 10 ^ 309 := by
    rw [Nat.div_lt_iff_lt_mul (by norm_num)]
    calc (roundHalfEven (|q| * 100)).toNat < 10 ^ 311 := hm
    _ = 10 ^ 309 * 100 := by
      rw [show (311 : ℕ) = 309 + 2 from rfl, pow_add]
      congr 1
  have hlen : (natStr ((roundHalfEven (|q| * 100)).toNat / 100)).length ≤ 309 :=
    natStr_length_le 309 _ (by norm_num) hdiv
  have htf : (twoFrac ((roundHalfEven (|q| * 100)).toNat % 100)).length = 2 :=
    twoFrac_length _ (Nat.mod_lt _ (by norm_num))
  unfold fmt2
  simp only [List.length_append, List.length_cons]
  split <;> simp only [List.length_cons, List.length_nil] <;> omega

/-- The rendered payload always fits the 2048-byte buffer when the
timestamp fits its own 32-byte buffer and the temperature is in double
range: the fixed template is 543 characters, the patient id 8, the
timestamp at most 31, and the value at most 313. -/
theorem buildJson_length_lt (iso : List Char) (q : ℚ)
    (hi : iso.length ≤ 31) (hq : |q| < dblOverflow) :
    (buildJson iso q).length < 2048 := by
  have hA : jsonA.length = 393 := by decide
  have hPid : patientId.length = 8 := by decide
  have hB : jsonB.length = 29 := by decide
  have hC : jsonC.length = 33 := by decide
  have hD : jsonD.length = 80 := by decide
  have hf := fmt2_length_le q hq
  simp only [buildJson, List.length_append]
  omega

/-- The value of a successful mantissa parse is nonnegative. -/
theorem parseMant_nonneg (l : List Char) (m : ℚ) (c r : List Char)
    (h : parseMant l = some (m, c, r)) : 0 ≤ m := by
  unfold parseMant at h
  split at h
  · split at h
    · exact absurd h (by simp)
    · simp only [Option.some.injEq, Prod.mk.injEq] at h
      obtain ⟨hm, -, -⟩ := h
      subst hm
      positivity
  · split at h
    · exact absurd h (by simp)
    · simp only [Option.some.injEq, Prod.mk.injEq] at h
      obtain ⟨hm, -, -⟩ := h
      subst hm
      positivity

/-- A finite result of `clampDouble` on a nonnegative magnitude lies
strictly inside double range. -/
theorem clampDouble_finite (neg : Bool) (mag q : ℚ)
    (hm : 0 ≤ mag) (h : clampDouble neg mag = .finite q) : |q| < dblOverflow := by
  unfold clampDouble at h
  split at h
  · split at h <;> simp at h
  · rename_i hlt
    simp only [CDouble.finite.injEq] at h
    split at h <;> subst h
    · rw [abs_neg, abs_of_nonneg hm]
      exact lt_of_not_le hlt
    · rw [abs_of_nonneg hm]
      exact lt_of_not_le hlt

/-- Any finite value the conversion tail produces lies strictly inside
double range. -/
theorem atofTail_finite_lt (neg : Bool) (ws sgn l2 l : List Char) (q : ℚ)
    (h : (atofTail neg ws sgn l2 l).1 = .finite q) : |q| < dblOverflow := by
  have hpos : (0 : ℚ) < dblOverflow := dblOverflow_pos
  unfold atofTail at h
  split at h
  · cases neg <;> simp at h
  · split at h
    · cases neg <;> simp at h
    · split at h
      · simp at h
      · split at h
        · rename_i m c1 r1 hpm
          dsimp only at h
          have hmag : 0 ≤ m * (10 : ℚ) ^ (parseExp r1).1 := by
            have := parseMant_nonneg _ _ _ _ hpm
            positivity
          exact clampDouble_finite _ _ _ hmag h
        · simp only at h
          simp only [CDouble.finite.injEq] at h
          rw [← h]
          simpa using hpos

/-- Any finite value `atof` produces lies strictly inside double range:
the conversion clamps to an infinity at `dblOverflow`. -/
theorem atof_finite_lt (l : List Char) (q : ℚ) (h : atof l = .finite q) :
    |q| < dblOverflow := by
  unfold atof atofParse at h
  dsimp only at h
  split at h <;> exact atofTail_finite_lt _ _ _ _ _ _ h

/-- Character facts about decimal digits used when tracing the parser. -/
theorem digitChars_facts : ∀ c ∈ digitChars,
    c.isDigit = true ∧ isSpaceC c = false ∧ c ≠ '+' ∧ c ≠ '-' ∧
    c.toLower ≠ 'i' ∧ c.toLower ≠ 'n' := by decide

/-- A maximal run of `p`-characters followed by a non-`p` boundary is what
`takeWhile` returns. -/
theorem takeWhile_append_headNot (p : Char → Bool) (t r : List Char)
    (ht : ∀ c ∈ t, p c = true) (hr : headNot p r) :
    (t ++ r).takeWhile p = t := by
  rw [List.takeWhile_append_of_pos ht]
  cases r with
  | nil => simp
  | cons c cs =>
    have hc : p c = false := hr
    simp [List.takeWhile_cons, hc]

/-- Companion to `takeWhile_append_headNot` for `dropWhile`. -/
theorem dropWhile_append_headNot (p : Char → Bool) (t r : List Char)
    (ht : ∀ c ∈ t, p c = true) (hr : headNot p r) :
    (t ++ r).dropWhile p = r := by
  rw [List.dropWhile_append_of_pos ht]
  cases r with
  | nil => simp
  | cons c cs =>
    have hc : p c = false := hr
    simp [List.dropWhile_cons, hc]

/-- A `numStop` list contributes no exponent: `parseExp` consumes nothing. -/
theorem parseExp_stop (junk : List Char) (hj : numStop junk) :
    parseExp junk = (0, [], junk) := by
  cases junk with
  | nil => rfl
  | cons c cs =>
    obtain ⟨-, -, he⟩ := hj
    simp only [parseExp]
    rw [if_neg he]

/-- A `numStop` list starts with no digits. -/
theorem parseDigits_stop (junk : List Char) (hj : numStop junk) :
    parseDigits junk = ([], junk) := by
  cases junk with
  | nil => rfl
  | cons c cs =>
    obtain ⟨hd, -, -⟩ := hj
    simp [parseDigits, List.takeWhile_cons, List.dropWhile_cons, hd]

/-- Mantissa parse of digits, a point, more digits, and trailing garbage:
the digits and the point are consumed, the garbage is left. -/
theorem parseMant_dot (ip fp junk : List Char)
    (hip : ∀ c ∈ ip, c.isDigit = true) (hfp : ∀ c ∈ fp, c.isDigit = true)
    (hne : ¬(ip = [] ∧ fp = [])) (hj : numStop junk) :
    parseMant (ip ++ '.' :: (fp ++ junk)) =
      some ((digitsVal ip : ℚ) + (digitsVal fp : ℚ) / 10 ^ fp.length,
            ip ++ '.' :: fp, junk) := by
  have hjd : headNot Char.isDigit junk := by
    cases junk with
    | nil => trivial
    | cons c cs => exact hj.1
  have h1 : parseDigits (ip ++ '.' :: (fp ++ junk)) = (ip, '.' :: (fp ++ junk)) := by
    unfold parseDigits
    rw [takeWhile_append_headNot _ _ _ hip (by simp [headNot]),
        dropWhile_append_headNot _ _ _ hip (by simp [headNot])]
  have h2 : parseDigits (fp ++ junk) = (fp, junk) := by
    unfold parseDigits
    rw [takeWhile_append_headNot _ _ _ hfp hjd,
        dropWhile_append_headNot _ _ _ hfp hjd]
  unfold parseMant
  rw [h1]
  simp only [h2]
  rw [if_neg hne]

/-- Mantissa parse of digits followed directly by trailing garbage. -/
theorem parseMant_nodot (ip junk : List Char)
    (hip : ∀ c ∈ ip, c.isDigit = true) (hne : ip ≠ [])
    (hj : numStop junk) :
    parseMant (ip ++ junk) = some ((digitsVal ip : ℚ), ip, junk) := by
  have hjd : headNot Char.isDigit junk := by
    cases junk with
    | nil => trivial
    | cons c cs => exact hj.1
  have h1 : parseDigits (ip ++ junk) = (ip, junk) := by
    unfold parseDigits
    rw [takeWhile_append_headNot _ _ _ hip hjd,
        dropWhile_append_headNot _ _ _ hip hjd]
  unfold parseMant
  rw [h1]
  cases junk with
  | nil => simp [hne]
  | cons c cs =>
    obtain ⟨-, hc', -⟩ := hj
    split
    · rename_i heq
      simp_all
    · simp [hne]

/-- A case-insensitive match fails immediately on a wrong first character. -/
theorem matchCI_cons_ne (p : Char) (ps : List Char) (c : Char) (cs : List Char)
    (h : c.toLower ≠ p) : matchCI (p :: ps) (c :: cs) = none := by
  simp [matchCI, h]

/-- When the input starts with a character that begins none of the special
words, the conversion tail is the mantissa-and-exponent path. -/
theorem atofTail_mant (neg : Bool) (ws sgn l : List Char) (l2 : List Char)
    (m : ℚ) (c1 r1 : List Char)
    (hhead : ∃ c cs, l2 = c :: cs ∧ c.toLower ≠ 'i' ∧ c.toLower ≠ 'n')
    (hpm : parseMant l2 = some (m, c1, r1))
    (hexp : parseExp r1 = (0, [], r1)) :
    (atofTail neg ws sgn l2 l).1 = clampDouble neg m := by
  obtain ⟨c, cs, rfl, hi, hn⟩ := hhead
  unfold atofTail
  rw [matchCI_cons_ne _ _ _ _ hi, matchCI_cons_ne _ _ _ _ hi,
      matchCI_cons_ne _ _ _ _ hn, hpm]
  dsimp only
  rw [hexp]
  dsimp only
  rw [zpow_zero, mul_one]

/-- Parsing a signed input whose body starts with a plain (non-space,
non-sign) character: the sign is consumed and the tail conversion runs on
the body, negating exactly when the sign was a minus. -/
theorem atof_eq_atofTail (sgn body : List Char)
    (hs : sgn = [] ∨ sgn = ['+'] ∨ sgn = ['-'])
    (hbody : ∃ c cs, body = c :: cs ∧ isSpaceC c = false ∧ c ≠ '+' ∧ c ≠ '-') :
    atof (sgn ++ body) = (atofTail (sgn == ['-']) [] sgn body (sgn ++ body)).1 := by
  obtain ⟨c, cs, rfl, hsp, hp, hm⟩ := hbody
  rcases hs with rfl | rfl | rfl
  · simp only [List.nil_append]
    unfold atof atofParse
    dsimp only
    simp only [List.takeWhile_cons, List.dropWhile_cons, hsp, Bool.false_eq_true,
      if_false]
    split
    · rename_i r heq
      exact absurd (List.head_eq_of_cons_eq heq) hp
    · rename_i r heq
      exact absurd (List.head_eq_of_cons_eq heq) hm
    · rfl
  · unfold atof atofParse
    dsimp only
    simp only [List.cons_append, List.takeWhile_cons, List.dropWhile_cons,
      show isSpaceC '+' = false from rfl, Bool.false_eq_true, if_false]
    rfl
  · unfold atof atofParse
    dsimp only
    simp only [List.cons_append, List.takeWhile_cons, List.dropWhile_cons,
      show isSpaceC '-' = false from rfl, Bool.false_eq_true, if_false]
    rfl

/-- An input whose first character can begin no number converts to zero:
this is the `atof` behavior on fully non-numeric strings. -/
theorem atof_nonum (l : List Char) (h : noNumHead l) : atof l = .finite 0 := by
  cases l with
  | nil => rfl
  | cons c cs =>
    obtain ⟨hsp, hd, hp, hm, hdot, hi, hn⟩ := h
    unfold atof atofParse
    dsimp only
    simp only [List.takeWhile_cons, List.dropWhile_cons, hsp, Bool.false_eq_true,
      if_false]
    have hpm : parseMant (c :: cs) = none := by
      unfold parseMant parseDigits
      simp only [List.takeWhile_cons, List.dropWhile_cons, hd, Bool.false_eq_true,
        if_false]
      split
      · rename_i heq
        exact absurd (List.head_eq_of_cons_eq heq) hdot
      · simp
    split
    · rename_i r heq
      exact absurd (List.head_eq_of_cons_eq heq) hp
    · rename_i r heq
      exact absurd (List.head_eq_of_cons_eq heq) hm
    · unfold atofTail
      rw [matchCI_cons_ne _ _ _ _ hi, matchCI_cons_ne _ _ _ _ hi,
          matchCI_cons_ne _ _ _ _ hn, hpm]

/-- Conversion of `[sign] digits . digits junk`: the numeric prefix is the
value, the junk is ignored. -/
theorem atof_dot (sgn ip fp junk : List Char)
    (hs : sgn = [] ∨ sgn = ['+'] ∨ sgn = ['-'])
    (hip : ∀ c ∈ ip, c ∈ digitChars) (hfp : ∀ c ∈ fp, c ∈ digitChars)
    (hne : ¬(ip = [] ∧ fp = [])) (hj : numStop junk) :
    atof (sgn ++ (ip ++ '.' :: (fp ++ junk))) =
      clampDouble (sgn == ['-'])
        ((digitsVal ip : ℚ) + (digitsVal fp : ℚ) / 10 ^ fp.length) := by
  have hipD : ∀ c ∈ ip, c.isDigit = true := fun c hc => (digitChars_facts c (hip c hc)).1
  have hfpD : ∀ c ∈ fp, c.isDigit = true := fun c hc => (digitChars_facts c (hfp c hc)).1
  have hbody : ∃ c cs, ip ++ '.' :: (fp ++ junk) = c :: cs ∧
      isSpaceC c = false ∧ c ≠ '+' ∧ c ≠ '-' := by
    cases ip with
    | nil => exact ⟨'.', fp ++ junk, rfl, rfl, by decide, by decide⟩
    | cons c cs' =>
      obtain ⟨-, h2, h3, h4, -, -⟩ := digitChars_facts c (hip c (by simp))
      exact ⟨c, cs' ++ '.' :: (fp ++ junk), by simp, h2, h3, h4⟩
  have hhead2 : ∃ c cs, ip ++ '.' :: (fp ++ junk) = c :: cs ∧
      c.toLower ≠ 'i' ∧ c.toLower ≠ 'n' := by
    cases ip with
    | nil => exact ⟨'.', fp ++ junk, rfl, by decide, by decide⟩
    | cons c cs' =>
      obtain ⟨-, -, -, -, h5, h6⟩ := digitChars_facts c (hip c (by simp))
      exact ⟨c, cs' ++ '.' :: (fp ++ junk), by simp, h5, h6⟩
  rw [atof_eq_atofTail _ _ hs hbody]
  exact atofTail_mant _ _ _ _ _ _ _ _ hhead2
    (parseMant_dot ip fp junk hipD hfpD hne hj) (parseExp_stop junk hj)

/-- Conversion of `[sign] digits junk` (no decimal point): the digit prefix
is the value, the junk is ignored. -/
theorem atof_nodot (sgn ip junk : List Char)
    (hs : sgn = [] ∨ sgn = ['+'] ∨ sgn = ['-'])
    (hip : ∀ c ∈ ip, c ∈ digitChars)
    (hne : ip ≠ []) (hj : numStop junk) :
    atof (sgn ++ (ip ++ junk)) = clampDouble (sgn == ['-']) (digitsVal ip : ℚ) := by
  have hipD : ∀ c ∈ ip, c.isDigit = true := fun c hc => (digitChars_facts c (hip c hc)).1
  cases ip with
  | nil => exact absurd rfl hne
  | cons c0 cs0 =>
    obtain ⟨-, h2, h3, h4, h5, h6⟩ := digitChars_facts c0 (hip c0 (by simp))
    have hbody : ∃ c cs, c0 :: cs0 ++ junk = c :: cs ∧
        isSpaceC c = false ∧ c ≠ '+' ∧ c ≠ '-' :=
      ⟨c0, cs0 ++ junk, by simp, h2, h3, h4⟩
    rw [atof_eq_atofTail _ _ hs hbody]
    exact atofTail_mant _ _ _ _ _ _ _ _ ⟨c0, cs0 ++ junk, by simp, h5, h6⟩
      (parseMant_nodot _ junk hipD (by simp) hj) (parseExp_stop junk hj)

/-- A run that read a string converting to a finite value proceeds to the
build-and-send phase. -/
theorem run_finite (env : Env) (s : List Char) (q : ℚ)
    (hr : readLine env = some s) (ha : atof s = .finite q) :
    run env = buildAndSend (inputEvents env) (env.nowIso.take 31) q
      env.curlInitOk env.transport := by
  unfold run
  rw [hr]
  dsimp only
  rw [ha]

/-- A run that read a string converting to a non-finite value stops with the
invalid-value message and exit code 1, emitting nothing else. -/
theorem run_nonfinite (env : Env) (s : List Char) (d : CDouble)
    (hr : readLine env = some s) (ha : atof s = d) (hf : isfinite d = false) :
    run env = ⟨inputEvents env ++ [.err invalidMsg], 1⟩ := by
  unfold run
  rw [hr]
  dsimp only
  rw [ha]
  cases d with
  | finite q => simp [isfinite] at hf
  | posInf => rfl
  | negInf => rfl
  | nan => rfl

/-- A run that obtained no input stops with the no-input message. -/
theorem run_noinput (env : Env) (hr : readLine env = none) :
    run env = ⟨inputEvents env ++ [.err noInputMsg], 1⟩ := by
  unfold run
  rw [hr]

/-- The payload built inside a run always fits the buffer: the timestamp is
capped at 31 characters by its own buffer and the parsed temperature is in
double range. -/
theorem run_payload_fits (env : Env) (s : List Char) (q : ℚ)
    (ha : atof s = .finite q) :
    (buildJson (env.nowIso.take 31) q).length < 2048 := by
  refine buildJson_length_lt _ _ ?_ (atof_finite_lt s q ha)
  simp [List.length_take]

/-- Build-and-send on a fitting payload with working curl and a received
response: status line then verdict by the 2xx test. -/
theorem buildAndSend_resp (evs : List OutEvent) (iso : List Char) (q : ℚ)
    (c : ℤ) (body : List Char) (hlen : (buildJson iso q).length < 2048) :
    buildAndSend evs iso q true (.ok c body) =
      if 200 ≤ c ∧ c < 300 then
        ⟨evs ++ [.out postingMsg,
                 .post fhirServerUrl reqHeaders userAgent (buildJson iso q),
                 .out body, .out (respCodeMsgPre ++ intStr c ++ "\n".data),
                 .out successMsg], 0⟩
      else
        ⟨evs ++ [.out postingMsg,
                 .post fhirServerUrl reqHeaders userAgent (buildJson iso q),
                 .out body, .out (respCodeMsgPre ++ intStr c ++ "\n".data),
                 .out failureMsg], 1⟩ := by
  unfold buildAndSend
  rw [if_neg (by omega), if_neg (by simp)]

/-- Build-and-send on a fitting payload with working curl and a transport
failure: the strerror message on stderr, exit 1, nothing after it. -/
theorem buildAndSend_fail (evs : List OutEvent) (iso : List Char) (q : ℚ)
    (m : List Char) (hlen : (buildJson iso q).length < 2048) :
    buildAndSend evs iso q true (.fail m) =
      ⟨evs ++ [.out postingMsg,
               .post fhirServerUrl reqHeaders userAgent (buildJson iso q),
               .err (performFailMsgPre ++ m ++ "\n".data)], 1⟩ := by
  unfold buildAndSend
  rw [if_neg (by omega), if_neg (by simp)]

/-- Build-and-send when `curl_easy_init` fails: the failure message, exit 1,
and no POST. -/
theorem buildAndSend_noinit (evs : List OutEvent) (iso : List Char) (q : ℚ)
    (tr : TransportResult) (hlen : (buildJson iso q).length < 2048) :
    buildAndSend evs iso q false tr = ⟨evs ++ [.err curlInitFailMsg], 1⟩ := by
  unfold buildAndSend
  rw [if_neg (by omega), if_pos rfl]

/-- POST counting distributes over append. -/
theorem countPosts_append (a b : List OutEvent) :
    countPosts (a ++ b) = countPosts a + countPosts b :=
  List.countP_append _ _ _

/-- The input phase performs no POST. -/
theorem countPosts_inputEvents (env : Env) : countPosts (inputEvents env) = 0 := by
  unfold inputEvents
  cases env.args <;> simp [countPosts, isPost]

/-- C1: for every finite temperature value, the payload contains a
valueQuantity whose value field is the temperature rendered with exactly two
digits after the decimal point (an integer part free of further points, one
point, two digit characters), and 36.5 renders as 36.50. -/
theorem spec_c1 :
    (∀ (iso : List Char) (q : ℚ), ∃ pre ip fr,
      buildJson iso q = pre ++ ("\"value\": ".data ++ (ip ++ '.' :: fr)) ++ jsonD ∧
      fmt2 q = ip ++ '.' :: fr ∧ fr.length = 2 ∧
      (∀ c ∈ fr, c.isDigit = true) ∧ '.' ∉ ip) ∧
    fmt2 (365 / 10 : ℚ) = "36.50".data := by
  constructor
  · intro iso q
    obtain ⟨ip, fr, hf, h2, h3, h4⟩ := fmt2_shape q
    refine ⟨jsonA ++ patientId ++ jsonB ++ iso ++ ("\",\n  \"valueQuantity\": \x7b ").data,
            ip, fr, ?_, hf, h2, h3, h4⟩
    rw [← hf]
    have hsplit : jsonC = ("\",\n  \"valueQuantity\": \x7b ").data ++ "\"value\": ".data := by
      decide
    unfold buildJson
    rw [hsplit]
    simp [List.append_assoc]
  · with_unfolding_all rfl

/-- C1 witness: the example rendering from the claim. -/
theorem spec_c1_witness : fmt2 (365 / 10 : ℚ) = "36.50".data := spec_c1.2

/-- C2: an input whose permissive parse is non-finite makes the program print
the invalid-value message and exit 1, emitting no POST. -/
theorem spec_c2 (env : Env) (d : CDouble)
    (h : parsedTemp env = some d) (hf : isfinite d = false) :
    run env = ⟨inputEvents env ++ [.err invalidMsg], 1⟩ ∧
    countPosts (run env).events = 0 := by
  obtain ⟨s, hr, ha⟩ : ∃ s, readLine env = some s ∧ atof s = d := by
    unfold parsedTemp at h
    cases hrl : readLine env with
    | none => rw [hrl] at h; simp at h
    | some s =>
      rw [hrl] at h
      simp at h
      exact ⟨s, rfl, h⟩
  have he := run_nonfinite env s d hr ha hf
  refine ⟨he, ?_⟩
  rw [he]
  show countPosts (inputEvents env ++ [.err invalidMsg]) = 0
  rw [countPosts_append, countPosts_inputEvents]
  rfl

/-- C2 witness: the CLI argument string nan parses to NaN, is rejected with
exit 1, and produces no POST. -/
theorem spec_c2_witness :
    run ⟨["nan".data], none, [], true, .fail []⟩ = ⟨[.err invalidMsg], 1⟩ ∧
    countPosts (run ⟨["nan".data], none, [], true, .fail []⟩).events = 0 := by
  have h3 := spec_c2 ⟨["nan".data], none, [], true, .fail []⟩ CDouble.nan rfl rfl
  exact ⟨by rw [h3.1]; rfl, h3.2⟩

/-- C3: on a received HTTP response the program prints the numeric status
code; a status in the 2xx range yields the success message and exit 0, and
any status outside it yields one fixed generic failure message and exit 1 —
the verdict depends only on the range test, never on the response body. -/
theorem spec_c3 (env : Env) (s : List Char) (q : ℚ) (c : ℤ) (body : List Char)
    (hr : readLine env = some s) (ha : atof s = .finite q)
    (hok : env.curlInitOk = true) (ht : env.transport = .ok c body) :
    ((200 ≤ c ∧ c < 300) →
      run env = ⟨respPrefix env q c body ++ [.out successMsg], 0⟩) ∧
    (¬(200 ≤ c ∧ c < 300) →
      run env = ⟨respPrefix env q c body ++ [.out failureMsg], 1⟩) := by
  have hlen := run_payload_fits env s q ha
  have h1 := run_finite env s q hr ha
  rw [hok, ht, buildAndSend_resp _ _ _ _ _ hlen] at h1
  constructor
  · intro hc
    rw [h1, if_pos hc]
    simp [respPrefix, List.append_assoc]
  · intro hc
    rw [h1, if_neg hc]
    simp [respPrefix, List.append_assoc]

/-- C3 witness: a 201 response yields success and exit 0, a 404 response
yields the generic failure message and exit 1. -/
theorem spec_c3_witness :
    run ⟨["36.6".data], none, "2026-10-11T00:00:00Z".data, true, .ok 201 "BODY".data⟩ =
      ⟨respPrefix ⟨["36.6".data], none, "2026-10-11T00:00:00Z".data, true, .ok 201 "BODY".data⟩
         (183/5) 201 "BODY".data ++ [.out successMsg], 0⟩ ∧
    run ⟨["36.6".data], none, "2026-10-11T00:00:00Z".data, true, .ok 404 "BODY".data⟩ =
      ⟨respPrefix ⟨["36.6".data], none, "2026-10-11T00:00:00Z".data, true, .ok 404 "BODY".data⟩
         (183/5) 404 "BODY".data ++ [.out failureMsg], 1⟩ :=
  ⟨(spec_c3 ⟨["36.6".data], none, "2026-10-11T00:00:00Z".data, true, .ok 201 "BODY".data⟩
      "36.6".data (183/5) 201 "BODY".data rfl (by with_unfolding_all rfl) rfl rfl).1
      (by norm_num),
   (spec_c3 ⟨["36.6".data], none, "2026-10-11T00:00:00Z".data, true, .ok 404 "BODY".data⟩
      "36.6".data (183/5) 404 "BODY".data rfl (by with_unfolding_all rfl) rfl rfl).2
      (by norm_num)⟩

/-- C6: a transport-level failure prints the strerror reason on stderr and
exits 1; the exact event list shows no status code and no verdict message is
printed. -/
theorem spec_c6 (env : Env) (s : List Char) (q : ℚ) (m : List Char)
    (hr : readLine env = some s) (ha : atof s = .finite q)
    (hok : env.curlInitOk = true) (ht : env.transport = .fail m) :
    run env = ⟨inputEvents env ++
      [.out postingMsg,
       .post fhirServerUrl reqHeaders userAgent (buildJson (env.nowIso.take 31) q),
       .err (performFailMsgPre ++ m ++ "\n".data)], 1⟩ := by
  have hlen := run_payload_fits env s q ha
  have h1 := run_finite env s q hr ha
  rw [hok, ht, buildAndSend_fail _ _ _ _ hlen] at h1
  exact h1

/-- C6 witness: a concrete transport failure surfaces its reason and exit 1. -/
theorem spec_c6_witness :
    run ⟨["36.6".data], none, "2026-10-11T00:00:00Z".data, true,
         .fail "Could not resolve host".data⟩ =
      ⟨[.out postingMsg,
        .post fhirServerUrl reqHeaders userAgent
          (buildJson ("2026-10-11T00:00:00Z".data.take 31) (183/5)),
        .err (performFailMsgPre ++ "Could not resolve host".data ++ "\n".data)], 1⟩ := by
  have h := spec_c6 ⟨["36.6".data], none, "2026-10-11T00:00:00Z".data, true,
      .fail "Could not resolve host".data⟩ "36.6".data (183/5)
      "Could not resolve host".data rfl (by with_unfolding_all rfl) rfl rfl
  rw [h]
  rfl

/-- C9: when `curl_easy_init` fails the program prints the initialization
failure message on stderr and exits 1 without any POST. -/
theorem spec_c9 (env : Env) (s : List Char) (q : ℚ)
    (hr : readLine env = some s) (ha : atof s = .finite q)
    (hok : env.curlInitOk = false) :
    run env = ⟨inputEvents env ++ [.err curlInitFailMsg], 1⟩ ∧
    countPosts (run env).events = 0 := by
  have hlen := run_payload_fits env s q ha
  have h1 := run_finite env s q hr ha
  rw [hok, buildAndSend_noinit _ _ _ _ hlen] at h1
  refine ⟨h1, ?_⟩
  rw [h1]
  show countPosts (inputEvents env ++ [.err curlInitFailMsg]) = 0
  rw [countPosts_append, countPosts_inputEvents]
  rfl

/-- C9 witness: curl initialization failure on a valid input. -/
theorem spec_c9_witness :
    run ⟨["36.6".data], none, "2026-10-11T00:00:00Z".data, false, .fail []⟩ =
      ⟨[.err curlInitFailMsg], 1⟩ ∧
    countPosts (run ⟨["36.6".data], none, "2026-10-11T00:00:00Z".data, false,
      .fail []⟩).events = 0 := by
  have h := spec_c9 ⟨["36.6".data], none, "2026-10-11T00:00:00Z".data, false, .fail []⟩
      "36.6".data (183/5) rfl (by with_unfolding_all rfl) rfl
  exact ⟨by rw [h.1]; rfl, h.2⟩

/-- C10: with at least one argument present the input phase prints nothing
(no prompt), the value read is the first argument, stdin is never consulted
(the run is identical for any stdin state), and additional arguments are
ignored (the run is identical to the single-argument run). -/
theorem spec_c10 (a : List Char) (rest : List (List Char))
    (stdin stdin' : Option (List Char)) (now : List Char) (ok : Bool)
    (tr : TransportResult) :
    run ⟨a :: rest, stdin, now, ok, tr⟩ = run ⟨[a], stdin', now, ok, tr⟩ ∧
    inputEvents ⟨a :: rest, stdin, now, ok, tr⟩ = [] ∧
    readLine ⟨a :: rest, stdin, now, ok, tr⟩ = some a :=
  ⟨rfl, rfl, rfl⟩

/-- Events already emitted before a phase contribute no POSTs when they are
the input phase. -/
theorem countPosts_input_append (env : Env) (l : List OutEvent) :
    countPosts (inputEvents env ++ l) = countPosts l := by
  rw [countPosts_append, countPosts_inputEvents]
  exact Nat.zero_add _

/-- C4: permissive parsing.  A signed digit string with decimal point and
trailing garbage parses to the value of its numeric prefix; so does one
without a point; an input with no numeric prefix parses to zero, which is
finite and hence not rejected; the command-line argument and the stdin line
are parsed by the same conversion; and a fully non-numeric input is accepted
as a zero temperature all the way to the POST of the zero payload. -/
theorem spec_c4 :
    (∀ sgn ip fp junk : List Char, (sgn = [] ∨ sgn = ['+'] ∨ sgn = ['-']) →
      (∀ c ∈ ip, c ∈ digitChars) → (∀ c ∈ fp, c ∈ digitChars) →
      ¬(ip = [] ∧ fp = []) → numStop junk →
      atof (sgn ++ (ip ++ '.' :: (fp ++ junk))) =
        clampDouble (sgn == ['-'])
          ((digitsVal ip : ℚ) + (digitsVal fp : ℚ) / 10 ^ fp.length)) ∧
    (∀ sgn ip junk : List Char, (sgn = [] ∨ sgn = ['+'] ∨ sgn = ['-']) →
      (∀ c ∈ ip, c ∈ digitChars) → ip ≠ [] → numStop junk →
      atof (sgn ++ (ip ++ junk)) = clampDouble (sgn == ['-']) (digitsVal ip : ℚ)) ∧
    (∀ l : List Char, noNumHead l →
      atof l = .finite 0 ∧ isfinite (atof l) = true) ∧
    (∀ (a : List Char) (r : List (List Char)) (st : Option (List Char))
        (now : List Char) (ok : Bool) (tr : TransportResult),
      parsedTemp ⟨a :: r, st, now, ok, tr⟩ = some (atof a) ∧
      parsedTemp ⟨[], some a, now, ok, tr⟩ = some (atof a)) ∧
    (∀ (s : List Char) (st : Option (List Char)) (now : List Char)
        (tr : TransportResult), noNumHead s →
      OutEvent.post fhirServerUrl reqHeaders userAgent (buildJson (now.take 31) 0)
        ∈ (run ⟨[s], st, now, true, tr⟩).events) := by
  refine ⟨atof_dot, atof_nodot, ?_, ?_, ?_⟩
  · intro l h
    have ha := atof_nonum l h
    exact ⟨ha, by rw [ha]; rfl⟩
  · intro a r st now ok tr
    exact ⟨rfl, rfl⟩
  · intro s st now tr h
    have ha := atof_nonum s h
    have hrl : readLine ⟨[s], st, now, true, tr⟩ = some s := rfl
    rw [run_finite _ _ _ hrl ha]
    have hlen := run_payload_fits ⟨[s], st, now, true, tr⟩ s 0 ha
    unfold buildAndSend
    rw [if_neg (by omega), if_neg (by simp)]
    cases tr with
    | fail m =>
      dsimp only
      simp
    | ok c body =>
      dsimp only
      split <;> simp

/-- C4 witness: concrete instances of each conjunct, including the example
values -36.6xyz, abc, and 36.6. -/
theorem spec_c4_witness :
    atof (['-'] ++ ("36".data ++ '.' :: ("6".data ++ "xyz".data))) =
      clampDouble ((['-'] : List Char) == ['-'])
        ((digitsVal "36".data : ℚ) +
          (digitsVal "6".data : ℚ) / 10 ^ ("6".data).length) ∧
    atof ([] ++ ("7".data ++ "F".data)) =
      clampDouble (([] : List Char) == ['-']) (digitsVal "7".data : ℚ) ∧
    atof "abc".data = .finite 0 ∧
    parsedTemp ⟨["36.6".data], none, [], true, .fail []⟩ = some (atof "36.6".data) ∧
    OutEvent.post fhirServerUrl reqHeaders userAgent (buildJson (([] : List Char).take 31) 0)
      ∈ (run ⟨["abc".data], none, [], true, .ok 200 []⟩).events :=
  ⟨spec_c4.1 ['-'] "36".data "6".data "xyz".data (Or.inr (Or.inr rfl))
      (by decide) (by decide) (by decide) (by decide),
   spec_c4.2.1 [] "7".data "F".data (Or.inl rfl) (by decide) (by decide) (by decide),
   (spec_c4.2.2.1 "abc".data (by decide)).1,
   (spec_c4.2.2.2.1 "36.6".data [] none [] true (.fail [])).1,
   spec_c4.2.2.2.2 "abc".data none [] (.ok 200 []) (by decide)⟩

/-- C5 counterexample: the claim that every process run issues exactly one
POST is false — a run with no input at all (stdin closed) issues none. -/
theorem spec_c5_cex : ¬ (∀ env : Env, countPosts (run env).events = 1) := by
  intro hall
  have h := hall ⟨[], none, [], true, .ok 200 []⟩
  have h0 : countPosts (run ⟨[], none, [], true, .ok 200 []⟩).events = 0 := rfl
  omega

/-- C5 (amended): every run issues at most one POST, and a run that reads an
input converting to a finite value with curl initializing issues exactly
one. -/
theorem spec_c5 (env : Env) :
    countPosts (run env).events ≤ 1 ∧
    (∀ s q, readLine env = some s → atof s = .finite q →
      env.curlInitOk = true → countPosts (run env).events = 1) := by
  constructor
  · cases hrl : readLine env with
    | none =>
      rw [run_noinput _ hrl]
      dsimp only
      rw [countPosts_input_append]
      simp [countPosts, List.countP_cons, List.countP_nil, isPost]
    | some s =>
      cases had : atof s with
      | finite q =>
        rw [run_finite _ _ _ hrl had]
        unfold buildAndSend
        repeat' split
        all_goals dsimp only
        all_goals rw [countPosts_input_append]
        all_goals simp [countPosts, List.countP_cons, List.countP_nil, isPost]
      | posInf =>
        rw [run_nonfinite _ _ _ hrl had rfl]
        dsimp only
        rw [countPosts_input_append]
        simp [countPosts, List.countP_cons, List.countP_nil, isPost]
      | negInf =>
        rw [run_nonfinite _ _ _ hrl had rfl]
        dsimp only
        rw [countPosts_input_append]
        simp [countPosts, List.countP_cons, List.countP_nil, isPost]
      | nan =>
        rw [run_nonfinite _ _ _ hrl had rfl]
        dsimp only
        rw [countPosts_input_append]
        simp [countPosts, List.countP_cons, List.countP_nil, isPost]
  · intro s q hrl had hok
    rw [run_finite _ _ _ hrl had, hok]
    have hlen := run_payload_fits env s q had
    unfold buildAndSend
    rw [if_neg (by omega), if_neg (by simp)]
    cases htr : env.transport with
    | fail m =>
      dsimp only
      rw [countPosts_input_append]
      simp [countPosts, List.countP_cons, List.countP_nil, isPost]
    | ok c body =>
      dsimp only
      split
      · dsimp only
        rw [countPosts_input_append]
        simp [countPosts, List.countP_cons, List.countP_nil, isPost]
      · dsimp only
        rw [countPosts_input_append]
        simp [countPosts, List.countP_cons, List.countP_nil, isPost]

/-- C5 witness: the amended claim at a run that does reach the upload. -/
theorem spec_c5_witness :
    countPosts (run ⟨["36.6".data], none, "2026-10-11T00:00:00Z".data, true,
      .ok 201 []⟩).events ≤ 1 ∧
    countPosts (run ⟨["36.6".data], none, "2026-10-11T00:00:00Z".data, true,
      .ok 201 []⟩).events = 1 :=
  ⟨(spec_c5 ⟨["36.6".data], none, "2026-10-11T00:00:00Z".data, true, .ok 201 []⟩).1,
   (spec_c5 ⟨["36.6".data], none, "2026-10-11T00:00:00Z".data, true, .ok 201 []⟩).2
     "36.6".data (183/5) rfl (by with_unfolding_all rfl) rfl⟩

/-- C7: every payload contains the fixed subject reference Patient/49410276,
the fixed status final, the fixed LOINC 8310-5 code coding, and the fixed
vital-signs category coding, whatever the temperature and timestamp. -/
theorem spec_c7 (iso : List Char) (q : ℚ) :
    containsSeg (buildJson iso q)
      ("\"subject\": \x7b \"reference\": \"Patient/49410276\" \x7d".data) ∧
    containsSeg (buildJson iso q) ("\"status\": \"final\"".data) ∧
    containsSeg (buildJson iso q)
      ("\"coding\": [ \x7b \"system\": \"http://loinc.org\", \"code\": \"8310-5\", \"display\": \"Body temperature\" \x7d ]".data) ∧
    containsSeg (buildJson iso q)
      ("\"system\": \"http://terminology.hl7.org/CodeSystem/observation-category\", \"code\": \"vital-signs\", \"display\": \"Vital Signs\"".data) := by
  refine ⟨⟨("\x7b\n  \"resourceType\": \"Observation\",\n  \"status\": \"final\",\n  \"category\": [ \x7b \"coding\": [ \x7b \"system\": \"http://terminology.hl7.org/CodeSystem/observation-category\", \"code\": \"vital-signs\", \"display\": \"Vital Signs\" \x7d ] \x7d ],\n  \"code\": \x7b \"coding\": [ \x7b \"system\": \"http://loinc.org\", \"code\": \"8310-5\", \"display\": \"Body temperature\" \x7d ], \"text\": \"Body temperature\" \x7d,\n  ").data,
            (",\n  \"effectiveDateTime\": \"").data ++ iso ++ jsonC ++ fmt2 q ++ jsonD, ?_⟩,
          ⟨("\x7b\n  \"resourceType\": \"Observation\",\n  ").data,
            (",\n  \"category\": [ \x7b \"coding\": [ \x7b \"system\": \"http://terminology.hl7.org/CodeSystem/observation-category\", \"code\": \"vital-signs\", \"display\": \"Vital Signs\" \x7d ] \x7d ],\n  \"code\": \x7b \"coding\": [ \x7b \"system\": \"http://loinc.org\", \"code\": \"8310-5\", \"display\": \"Body temperature\" \x7d ], \"text\": \"Body temperature\" \x7d,\n  \"subject\": \x7b \"reference\": \"Patient/").data ++
              patientId ++ jsonB ++ iso ++ jsonC ++ fmt2 q ++ jsonD, ?_⟩,
          ⟨("\x7b\n  \"resourceType\": \"Observation\",\n  \"status\": \"final\",\n  \"category\": [ \x7b \"coding\": [ \x7b \"system\": \"http://terminology.hl7.org/CodeSystem/observation-category\", \"code\": \"vital-signs\", \"display\": \"Vital Signs\" \x7d ] \x7d ],\n  \"code\": \x7b ").data,
            (", \"text\": \"Body temperature\" \x7d,\n  \"subject\": \x7b \"reference\": \"Patient/").data ++
              patientId ++ jsonB ++ iso ++ jsonC ++ fmt2 q ++ jsonD, ?_⟩,
          ⟨("\x7b\n  \"resourceType\": \"Observation\",\n  \"status\": \"final\",\n  \"category\": [ \x7b \"coding\": [ \x7b ").data,
            (" \x7d ] \x7d ],\n  \"code\": \x7b \"coding\": [ \x7b \"system\": \"http://loinc.org\", \"code\": \"8310-5\", \"display\": \"Body temperature\" \x7d ], \"text\": \"Body temperature\" \x7d,\n  \"subject\": \x7b \"reference\": \"Patient/").data ++
              patientId ++ jsonB ++ iso ++ jsonC ++ fmt2 q ++ jsonD, ?_⟩⟩
  · have h : jsonA ++ patientId ++ jsonB =
        ("\x7b\n  \"resourceType\": \"Observation\",\n  \"status\": \"final\",\n  \"category\": [ \x7b \"coding\": [ \x7b \"system\": \"http://terminology.hl7.org/CodeSystem/observation-category\", \"code\": \"vital-signs\", \"display\": \"Vital Signs\" \x7d ] \x7d ],\n  \"code\": \x7b \"coding\": [ \x7b \"system\": \"http://loinc.org\", \"code\": \"8310-5\", \"display\": \"Body temperature\" \x7d ], \"text\": \"Body temperature\" \x7d,\n  ").data ++
          ("\"subject\": \x7b \"reference\": \"Patient/49410276\" \x7d".data) ++
          (",\n  \"effectiveDateTime\": \"").data := by decide
    calc buildJson iso q
        = (jsonA ++ patientId ++ jsonB) ++ (iso ++ jsonC ++ fmt2 q ++ jsonD) := by
          simp [buildJson, List.append_assoc]
      _ = _ := by rw [h]; simp [List.append_assoc]
  · have h : jsonA =
        ("\x7b\n  \"resourceType\": \"Observation\",\n  ").data ++
          ("\"status\": \"final\"".data) ++
          (",\n  \"category\": [ \x7b \"coding\": [ \x7b \"system\": \"http://terminology.hl7.org/CodeSystem/observation-category\", \"code\": \"vital-signs\", \"display\": \"Vital Signs\" \x7d ] \x7d ],\n  \"code\": \x7b \"coding\": [ \x7b \"system\": \"http://loinc.org\", \"code\": \"8310-5\", \"display\": \"Body temperature\" \x7d ], \"text\": \"Body temperature\" \x7d,\n  \"subject\": \x7b \"reference\": \"Patient/").data := by decide
    calc buildJson iso q
        = jsonA ++ (patientId ++ jsonB ++ iso ++ jsonC ++ fmt2 q ++ jsonD) := by
          simp [buildJson, List.append_assoc]
      _ = _ := by rw [h]; simp [List.append_assoc]
  · have h : jsonA =
        ("\x7b\n  \"resourceType\": \"Observation\",\n  \"status\": \"final\",\n  \"category\": [ \x7b \"coding\": [ \x7b \"system\": \"http://terminology.hl7.org/CodeSystem/observation-category\", \"code\": \"vital-signs\", \"display\": \"Vital Signs\" \x7d ] \x7d ],\n  \"code\": \x7b ").data ++
          ("\"coding\": [ \x7b \"system\": \"http://loinc.org\", \"code\": \"8310-5\", \"display\": \"Body temperature\" \x7d ]".data) ++
          (", \"text\": \"Body temperature\" \x7d,\n  \"subject\": \x7b \"reference\": \"Patient/").data := by decide
    calc buildJson iso q
        = jsonA ++ (patientId ++ jsonB ++ iso ++ jsonC ++ fmt2 q ++ jsonD) := by
          simp [buildJson, List.append_assoc]
      _ = _ := by rw [h]; simp [List.append_assoc]
  · have h : jsonA =
        ("\x7b\n  \"resourceType\": \"Observation\",\n  \"status\": \"final\",\n  \"category\": [ \x7b \"coding\": [ \x7b ").data ++
          ("\"system\": \"http://terminology.hl7.org/CodeSystem/observation-category\", \"code\": \"vital-signs\", \"display\": \"Vital Signs\"".data) ++
          (" \x7d ] \x7d ],\n  \"code\": \x7b \"coding\": [ \x7b \"system\": \"http://loinc.org\", \"code\": \"8310-5\", \"display\": \"Body temperature\" \x7d ], \"text\": \"Body temperature\" \x7d,\n  \"subject\": \x7b \"reference\": \"Patient/").data := by decide
    calc buildJson iso q
        = jsonA ++ (patientId ++ jsonB ++ iso ++ jsonC ++ fmt2 q ++ jsonD) := by
          simp [buildJson, List.append_assoc]
      _ = _ := by rw [h]; simp [List.append_assoc]

/-- C8: the payload-overflow guard reports an error and exits 1 without
adding any POST whenever the rendered payload would reach the 2048-byte
buffer; and that guard is unreachable through the program, since every
payload built from a parsed finite temperature and the 31-character-capped
timestamp is shorter than 2048 bytes. -/
theorem spec_c8 :
    (∀ (evs : List OutEvent) (iso : List Char) (q : ℚ) (ok : Bool)
        (tr : TransportResult), 2048 ≤ (buildJson iso q).length →
      buildAndSend evs iso q ok tr = ⟨evs ++ [.err payloadErrMsg], 1⟩ ∧
      countPosts (buildAndSend evs iso q ok tr).events = countPosts evs) ∧
    (∀ (env : Env) (s : List Char) (q : ℚ), readLine env = some s →
      atof s = .finite q → (buildJson (env.nowIso.take 31) q).length < 2048) := by
  constructor
  · intro evs iso q ok tr h
    have he : buildAndSend evs iso q ok tr = ⟨evs ++ [.err payloadErrMsg], 1⟩ := by
      unfold buildAndSend
      rw [if_pos h]
    refine ⟨he, ?_⟩
    rw [he]
    dsimp only
    rw [countPosts_append]
    simp [countPosts, List.countP_cons, List.countP_nil, isPost]
  · intro env s q hr ha
    exact run_payload_fits env s q ha

/-- C8 witness: an oversize rendering (forced by an oversize timestamp
argument) takes the error exit without posting, and the payload for the
parsed input 36.6 with a real timestamp fits. -/
theorem spec_c8_witness :
    buildAndSend [] (List.replicate 2048 ' ') 0 true (.fail []) =
      ⟨[] ++ [.err payloadErrMsg], 1⟩ ∧
    (buildJson (("2026-10-11T00:00:00Z".data : List Char).take 31) (183/5)).length < 2048 :=
  ⟨(spec_c8.1 [] (List.replicate 2048 ' ') 0 true (.fail [])
      (by simp only [buildJson, List.length_append, List.length_replicate]; omega)).1,
   spec_c8.2 ⟨["36.6".data], none, "2026-10-11T00:00:00Z".data, true, .fail []⟩
      "36.6".data (183/5) rfl (by with_unfolding_all rfl)⟩

/-- C7 witness: the fixed fields at a concrete timestamp and temperature. -/
theorem spec_c7_witness :
    containsSeg (buildJson "2026-10-11T00:00:00Z".data 0)
      ("\"subject\": \x7b \"reference\": \"Patient/49410276\" \x7d".data) ∧
    containsSeg (buildJson "2026-10-11T00:00:00Z".data 0)
      ("\"status\": \"final\"".data) :=
  ⟨(spec_c7 "2026-10-11T00:00:00Z".data 0).1, (spec_c7 "2026-10-11T00:00:00Z".data 0).2.1⟩

/-- C10 witness: with an argument present the run ignores stdin and extra
arguments, prints no prompt, and reads the first argument. -/
theorem spec_c10_witness :
    run ⟨["36.6".data, "extra".data], some "999".data, [], true, .fail []⟩ =
      run ⟨["36.6".data], none, [], true, .fail []⟩ ∧
    inputEvents ⟨["36.6".data, "extra".data], some "999".data, [], true, .fail []⟩ = [] ∧
    readLine ⟨["36.6".data, "extra".data], some "999".data, [], true, .fail []⟩ =
      some "36.6".data :=
  spec_c10 "36.6".data ["extra".data] (some "999".data) none [] true (.fail [])
